import Mathlib

/-!
Reservation core of `js/app.js`.

A shallow embedding of the two classes of `js/app.js` (`Reservation`,
`ReservationManager`) and of the handlers `window.addReservation` and
`window.addMenu`, followed by the properties of the specification proved over
them.

Conventions of the embedding.

* A Number held in a field (a dish quantity, a numeric `numOfGuests`) is an
  integer-valued double, an infinity or `NaN` (`Number`); arithmetic rounds to
  the nearest double, ties to even. The result of converting a string to a
  Number may have a fraction (`Double`). Positive and negative zero are not
  told apart: no operation of the program distinguishes them.
* The field `numOfGuests` holds a Number or a string: the page stores the raw
  text of the form field there (lines 122 and 134).
* A method that assigns to a field of `this` returns the updated object next
  to its result. The manager holds its reservations by value; `App.stored`
  records which of them are the very object `currentReservation`, so that an
  assignment through `currentReservation` is seen in the sequence.
* `localStorage` holds one text under the key `'reservations'`.  A stored text
  is identified with the JSON document it denotes (`Json`); the textual layer
  of the builtins `JSON.stringify` / `JSON.parse` is not modelled, and the
  numbers of a document are integers.
* An exception is an explicit `Completion.throw`.
-/

namespace ReservationApp

/-! ## Numbers -/

/-- A Number whose value is an integer, an infinity or `NaN`. The two zeros
are not told apart. -/
inductive Number where
  | finite (n : Int)
  | posInf
  | negInf
  | nan
deriving DecidableEq, Repr

instance (n : Nat) : OfNat Number n := ⟨.finite (Int.ofNat n)⟩

/-- A Number in general, as a conversion yields it: the value `num / 2 ^ scale`
(kept in lowest terms by the conversions), an infinity or `NaN`. -/
inductive Double where
  | finite (num : Int) (scale : Nat)
  | posInf
  | negInf
  | nan
deriving DecidableEq, Repr

/-- An integer-valued Number as a Number in general. -/
def Number.toDouble : Number → Double
  | .finite n => .finite n 0
  | .posInf => .posInf
  | .negInf => .negInf
  | .nan => .nan

/-- The unary operator `-` on an integer-valued Number. -/
def Number.neg : Number → Number
  | .finite n => .finite (-n)
  | .posInf => .negInf
  | .negInf => .posInf
  | .nan => .nan

/-- The unary operator `-` on a Number. -/
def Double.neg : Double → Double
  | .finite n s => .finite (-n) s
  | .posInf => .negInf
  | .negInf => .posInf
  | .nan => .nan

/-- The quotient `n / d` rounded to the nearest integer, a tie going to the
even one. -/
def halfEven (n d : Nat) : Nat :=
  let q := n / d
  let r := n % d
  if 2 * r < d then q else if d < 2 * r then q + 1 else if q % 2 = 0 then q else q + 1

/-- Doubles `d` until `n < d * 2 ^ 53`, counting the steps in `e`. -/
def scaleDown : Nat → Nat → Nat → Nat → Nat × Nat
  | 0, _, d, e => (d, e)
  | fuel + 1, n, d, e => if n < d * 2 ^ 53 then (d, e) else scaleDown fuel n (2 * d) (e + 1)

/-- Doubles `n` until `d * 2 ^ 52 ≤ n`, at most up to the scale 1074 of the
subnormal Numbers, counting the steps in `s`. -/
def scaleUp : Nat → Nat → Nat → Nat → Nat × Nat
  | 0, n, _, s => (n, s)
  | fuel + 1, n, d, s =>
    if d * 2 ^ 52 ≤ n ∨ s = 1074 then (n, s) else scaleUp fuel (2 * n) d (s + 1)

/-- The Number nearest to `n / d` when `d * 2 ^ 53 ≤ n`: a significand of 53
bits times a power of two, or `Infinity` when that product reaches `2 ^ 1024`
(the significand lies between `2 ^ 52` and `2 ^ 53`, so this is the exponent
test below). -/
def roundLarge (n d : Nat) : Number :=
  let scaled := scaleDown 1100 n d 0
  let m := halfEven n scaled.1
  if 971 < scaled.2 ∨ (scaled.2 = 971 ∧ m = 2 ^ 53) then .posInf
  else .finite (m * 2 ^ scaled.2 : Nat)

/-- The Number nearest to the natural number `n`; up to `2 ^ 53` every
integer is a Number. -/
def roundNat (n : Nat) : Number :=
  if n ≤ 2 ^ 53 then .finite n else roundLarge n 1

/-- The Number nearest to the integer `z`. -/
def roundInt : Int → Number
  | .ofNat n => roundNat n
  | .negSucc n => (roundNat (n + 1)).neg

/-- The fraction `num / 2 ^ scale` in lowest terms. -/
def reduceScale : Nat → Nat → Nat × Nat
  | num, 0 => (num, 0)
  | num, scale + 1 => if num % 2 = 0 then reduceScale (num / 2) scale else (num, scale + 1)

/-- The Number nearest to `n / d`, for `d` above zero: below `2 ^ 53` a
significand of 53 bits at most over a power of two, in lowest terms. -/
def roundRatio (n d : Nat) : Double :=
  if d * 2 ^ 53 ≤ n then (roundLarge n d).toDouble
  else
    let scaled := scaleUp 1100 n d 0
    let reduced := reduceScale (halfEven scaled.1 d) scaled.2
    .finite reduced.1 reduced.2

/-- The operator `+` on two Numbers. -/
def Number.add : Number → Number → Number
  | .finite a, .finite b => roundInt (a + b)
  | .nan, _ => .nan
  | _, .nan => .nan
  | .posInf, .negInf => .nan
  | .negInf, .posInf => .nan
  | .posInf, _ => .posInf
  | _, .posInf => .posInf
  | .negInf, _ => .negInf
  | _, .negInf => .negInf

/-- The operator `>` on two Numbers: false when either is `NaN`. -/
def Double.gt : Double → Double → Bool
  | .finite a j, .finite b k => decide (b * 2 ^ j < a * 2 ^ k)
  | .finite _ _, .negInf => true
  | .posInf, .finite _ _ => true
  | .posInf, .negInf => true
  | _, _ => false

/-- The code points that are white space or line terminators, which `parseInt`
and the conversion of a string to a Number skip. -/
def isStrWhiteSpaceChar (c : Char) : Bool :=
  c.toNat ∈ [0x09, 0x0A, 0x0B, 0x0C, 0x0D, 0x20, 0xA0, 0x1680, 0x2000, 0x2001, 0x2002, 0x2003,
    0x2004, 0x2005, 0x2006, 0x2007, 0x2008, 0x2009, 0x200A, 0x2028, 0x2029, 0x202F, 0x205F,
    0x3000, 0xFEFF]

/-- The value of a character as a digit, for radix up to 36. -/
def digitValue (c : Char) : Option Nat :=
  if '0' ≤ c ∧ c ≤ '9' then some (c.toNat - '0'.toNat)
  else if 'a' ≤ c ∧ c ≤ 'z' then some (c.toNat - 'a'.toNat + 10)
  else if 'A' ≤ c ∧ c ≤ 'Z' then some (c.toNat - 'A'.toNat + 10)
  else none

/-- The longest prefix of characters that are digits of the radix, as digit values. -/
def leadingDigits (radix : Nat) : List Char → List Nat
  | [] => []
  | c :: rest =>
    match digitValue c with
    | some d => if d < radix then d :: leadingDigits radix rest else []
    | none => []

/-- The number a sequence of digit values denotes in the radix. -/
def digitsValue (radix : Nat) (digits : List Nat) : Nat :=
  digits.foldl (fun acc d => acc * radix + d) 0

/-- The builtin `parseInt(string)` called without radix: white space is
skipped, a sign is read, a prefix `0x` or `0X` selects radix 16, and the
longest prefix of digits is the value, as the nearest Number; `NaN` without a
digit. -/
def parseInt (s : String) : Number :=
  let trimmed := s.toList.dropWhile isStrWhiteSpaceChar
  let signed : Bool × List Char :=
    match trimmed with
    | '-' :: rest => (true, rest)
    | '+' :: rest => (false, rest)
    | _ => (false, trimmed)
  let based : Nat × List Char :=
    match signed.2 with
    | '0' :: 'x' :: rest => (16, rest)
    | '0' :: 'X' :: rest => (16, rest)
    | _ => (10, signed.2)
  let digits := leadingDigits based.1 based.2
  if digits.isEmpty then .nan
  else
    let magnitude := roundNat (digitsValue based.1 digits)
    if signed.1 then magnitude.neg else magnitude

/-- The value of a string all of whose characters are digits of the radix;
`none` when some character is not, or when there is no character. -/
def allDigits (radix : Nat) (cs : List Char) : Option Nat :=
  if cs.isEmpty then none
  else if (leadingDigits radix cs).length = cs.length then
    some (digitsValue radix (leadingDigits radix cs))
  else none

/-- The exponent part after the letter `e`: an optional sign and digits. -/
def exponentValue (cs : List Char) : Option Int :=
  match cs with
  | '-' :: rest => (allDigits 10 rest).map (fun n => - (n : Int))
  | '+' :: rest => (allDigits 10 rest).map (fun n => (n : Int))
  | _ => (allDigits 10 cs).map (fun n => (n : Int))

/-- An unsigned decimal literal: `Infinity`, or digits with an optional
fraction and an optional exponent part, at least one digit before the
exponent. The value is the nearest Number. -/
def unsignedDecimal (cs : List Char) : Double :=
  if cs = "Infinity".toList then .posInf
  else
    let mantissa := cs.takeWhile (fun c => c != 'e' && c != 'E')
    let afterMantissa := cs.dropWhile (fun c => c != 'e' && c != 'E')
    let exponent : Option Int :=
      match afterMantissa with
      | [] => some 0
      | _ :: rest => exponentValue rest
    let whole := mantissa.takeWhile (fun c => c != '.')
    let frac := (mantissa.dropWhile (fun c => c != '.')).drop 1
    match exponent, allDigits 10 (whole ++ frac) with
    | some e, some digits =>
      let power : Int := e - frac.length
      if 0 ≤ power then roundRatio (digits * 10 ^ power.toNat) 1
      else roundRatio digits (10 ^ (-power).toNat)
    | _, _ => .nan

/-- The conversion of a string to a Number (the comparison of line 68 applies
it to a string operand): white space is trimmed at both ends, the empty
string is zero, then a signed decimal literal or an unsigned literal in radix
16, 8 or 2 is read; anything else is `NaN`. -/
def stringToNumber (s : String) : Double :=
  let trimmed :=
    ((s.toList.dropWhile isStrWhiteSpaceChar).reverse.dropWhile isStrWhiteSpaceChar).reverse
  match trimmed with
  | [] => .finite 0 0
  | '0' :: 'x' :: rest => ((allDigits 16 rest).map (fun n => roundRatio n 1)).getD .nan
  | '0' :: 'X' :: rest => ((allDigits 16 rest).map (fun n => roundRatio n 1)).getD .nan
  | '0' :: 'o' :: rest => ((allDigits 8 rest).map (fun n => roundRatio n 1)).getD .nan
  | '0' :: 'O' :: rest => ((allDigits 8 rest).map (fun n => roundRatio n 1)).getD .nan
  | '0' :: 'b' :: rest => ((allDigits 2 rest).map (fun n => roundRatio n 1)).getD .nan
  | '0' :: 'B' :: rest => ((allDigits 2 rest).map (fun n => roundRatio n 1)).getD .nan
  | '-' :: rest => (unsignedDecimal rest).neg
  | '+' :: rest => unsignedDecimal rest
  | _ => unsignedDecimal trimmed


/-- The operator `<=` on two Numbers: false when either is `NaN`. -/
def Double.le : Double → Double → Bool
  | .finite a j, .finite b k => decide (a * 2 ^ k ≤ b * 2 ^ j)
  | .negInf, .finite _ _ => true
  | .finite _ _, .posInf => true
  | .negInf, .posInf => true
  | .negInf, .negInf => true
  | .posInf, .posInf => true
  | _, _ => false

/-! ## Rendering of Numbers -/

/-- The decimal that has `k` significant digits at most, lies next to `n` and
is read back as `n`, if there is one: the digits of `n` beyond the first `k`
are cut (`lo`) or cut and rounded up (`hi`); of two that are read back as `n`
the nearer is taken, the even one on a tie. `len` is the count of digits of
`n`. -/
def shortestWith (n len k : Nat) : Option Nat :=
  let unit := 10 ^ (len - k)
  let lo := n / unit * unit
  let hi := lo + unit
  let loValid := decide (roundNat lo = .finite n)
  let hiValid := decide (roundNat hi = .finite n)
  if loValid && hiValid then
    if n - lo < hi - n then some lo
    else if hi - n < n - lo then some hi
    else if (n / unit) % 2 = 0 then some lo else some hi
  else if loValid then some lo
  else if hiValid then some hi
  else none

/-- The decimal with the fewest significant digits that is read back as `n`,
trying the counts of digits in the given order. -/
def shortestDecimal (n len : Nat) : List Nat → Nat
  | [] => n
  | k :: rest =>
    match shortestWith n len k with
    | some c => c
    | none => shortestDecimal n len rest

/-- The characters of a list without the zeros at its end. -/
def dropTrailingZeros (cs : List Char) : List Char :=
  (cs.reverse.dropWhile (fun c => c == '0')).reverse

/-- The exponent form of a Number from `10 ^ 21` on: the shortest digits, a
point after the first when there are more, `e+` and the exponent. -/
def exponentForm (n : Nat) : String :=
  let len := (toString n).length
  let c := shortestDecimal n len (List.range' 1 17)
  let all := (toString c).toList
  let digits := dropTrailingZeros all
  let fraction := digits.drop 1
  String.mk (digits.take 1) ++ (if fraction.isEmpty then "" else "." ++ String.mk fraction)
    ++ "e+" ++ toString (all.length - 1)

/-- The string of a natural Number: all its decimal digits below `10 ^ 21`,
the exponent form from there on. -/
def natToString (n : Nat) : String :=
  if n < 10 ^ 21 then toString n else exponentForm n

/-- The string a template literal (and `+` with a string) produces for an
integer-valued Number. -/
def numberToString : Number → String
  | .finite n => if n < 0 then "-" ++ natToString n.natAbs else natToString n.natAbs
  | .posInf => "Infinity"
  | .negInf => "-Infinity"
  | .nan => "NaN"

/-! ## Data model -/

/-- The constant `const RESERVATION_LIMIT_PER_HOUR = 10;` (line 2). -/
def RESERVATION_LIMIT_PER_HOUR : Nat := 10

/-- The values of the field `numOfGuests`: a Number, or the string the page
reads from the form field. -/
inductive GuestCount where
  | number (x : Number)
  | string (s : String)
deriving DecidableEq, Repr

instance (n : Nat) : OfNat GuestCount n := ⟨.number (.finite (Int.ofNat n))⟩

/-- The Number the comparison of line 68 converts `numOfGuests` to. -/
def GuestCount.toNumber : GuestCount → Double
  | .number x => x.toDouble
  | .string s => stringToNumber s

/-- The string a template literal produces for `numOfGuests`. -/
def GuestCount.toJSString : GuestCount → String
  | .number x => numberToString x
  | .string s => s

/-- One element of the `dishes` array: the object built in `window.addMenu`
(lines 163-166) with the keys `name` and `quantity`. -/
structure DishLine where
  name : String
  quantity : Number
deriving DecidableEq, Repr

/-- The fields of `class Reservation` (lines 59-64). -/
structure Reservation where
  clientName : String
  numOfGuests : GuestCount
  time : String
  dishes : List DishLine
deriving DecidableEq, Repr

/-- The constructor of `Reservation` (lines 59-64): `dishes` starts as `[]`. -/
def Reservation.new (clientName : String) (numOfGuests : GuestCount) (time : String) :
    Reservation :=
  { clientName := clientName, numOfGuests := numOfGuests, time := time, dishes := [] }

/-- The value `dishes.reduce((total, dish) => total + dish.quantity, 0)` of line 67. -/
def totalDishes (dishes : List DishLine) : Number :=
  dishes.foldl (fun total dish => total.add dish.quantity) (.finite 0)

/-- The method `addDishes` (lines 66-69):
`return totalDishes > this.numOfGuests ? false : (this.dishes = dishes, true);`
The second component is the receiver after the call. -/
def Reservation.addDishes (r : Reservation) (dishes : List DishLine) : Bool × Reservation :=
  if (totalDishes dishes).toDouble.gt r.numOfGuests.toNumber then (false, r)
  else (true, { r with dishes := dishes })

/-! ## Rendering of a reservation -/

/-- The loop of `Array.prototype.join`: before every element but the first
(`k > 0`) the separator is appended to the result `R`, then the element. -/
def joinFrom (sep : String) : Nat → String → List String → String
  | _, R, [] => R
  | k, R, x :: rest => joinFrom sep (k + 1) ((if k > 0 then R ++ sep else R) ++ x) rest

/-- The builtin `Array.prototype.join(sep)` on an array of strings. -/
def join (sep : String) (xs : List String) : String :=
  joinFrom sep 0 "" xs

/-- The arrow function of line 73, the template literal with the quantity, an `x`,
a blank and the name. -/
def renderDish (dish : DishLine) : String :=
  numberToString dish.quantity ++ "x " ++ dish.name

/-- The method `showInfo` (lines 71-75): the returned string and the receiver
after the call. The body reads the four fields and assigns to none. -/
def Reservation.showInfo (r : Reservation) : String × Reservation :=
  let dishInfo := join ", " (r.dishes.map renderDish)
  ("Cliente: " ++ r.clientName ++ ", Número de invitados: " ++ r.numOfGuests.toJSString
    ++ ", Hora: " ++ r.time ++ ", Platos: " ++ dishInfo, r)

/-! ## Persistence: `localStorage`, `JSON.stringify`, `JSON.parse` -/

/-- A JSON document (the value `JSON.parse` yields for a text, the text
`JSON.stringify` yields for a value). Numbers are restricted to integers. -/
inductive Json where
  | null
  | bool (b : Bool)
  | num (n : Int)
  | str (s : String)
  | arr (items : List Json)
  | obj (members : List (String × Json))

/-- The exceptions that the modelled code can raise. -/
inductive JSError where
  | syntaxError
  | typeError
  | quotaExceeded
deriving DecidableEq, Repr

/-- How a call ends: with a return value or with an exception. -/
inductive Completion (α : Type) where
  | normal (value : α)
  | throw (error : JSError)
deriving DecidableEq, Repr

/-- A text stored in `localStorage`: either the text of a JSON document or a
text that `JSON.parse` rejects. -/
inductive StoredText where
  | invalid
  | document (j : Json)

/-- The part of `localStorage` the program uses: the text under the key
`'reservations'` (`none` when the key is absent) and, for every document,
whether the browser accepts writing it (`setItem` throws when the quota is
exceeded). -/
structure LocalStorage where
  reservations : Option StoredText
  accepts : Json → Bool

/-- The call `localStorage.getItem('reservations')`: `none` is the value `null`. -/
def LocalStorage.getItem (ls : LocalStorage) : Option StoredText :=
  ls.reservations

/-- The call `localStorage.setItem('reservations', text)`: it throws when the
browser refuses the write and replaces the stored text otherwise. -/
def LocalStorage.setItem (ls : LocalStorage) (text : Json) : Except JSError LocalStorage :=
  if ls.accepts text then .ok { ls with reservations := some (.document text) }
  else .error .quotaExceeded

/-- The document `JSON.stringify` yields for a Number: `null` for an infinity
and for `NaN`. -/
def Number.toJson : Number → Json
  | .finite n => .num n
  | _ => .null

/-- The document `JSON.stringify` yields for the field `numOfGuests`. -/
def GuestCount.toJson : GuestCount → Json
  | .number x => x.toJson
  | .string s => .str s

/-- The document `JSON.stringify` yields for a dish object `{ name, quantity }`. -/
def DishLine.toJson (d : DishLine) : Json :=
  .obj [("name", .str d.name), ("quantity", d.quantity.toJson)]

/-- The document `JSON.stringify` yields for a `Reservation` object: its own properties in
creation order. -/
def Reservation.toJson (r : Reservation) : Json :=
  .obj [("clientName", .str r.clientName), ("numOfGuests", r.numOfGuests.toJson),
    ("time", .str r.time), ("dishes", .arr (r.dishes.map DishLine.toJson))]

/-- The call `JSON.stringify(this.reservations)` (line 91). -/
def JSON.stringify (reservations : List Reservation) : Json :=
  .arr (reservations.map Reservation.toJson)

/-- The call `JSON.parse(localStorage.getItem('reservations'))`: the argument `null` is
converted to the text `null`, which parses to the value `null`. -/
def JSON.parse : Option StoredText → Except JSError Json
  | none => .ok .null
  | some .invalid => .error .syntaxError
  | some (.document j) => .ok j

/-- Whether a parsed value is falsy, so that `value || []` is `[]`. -/
def Json.falsy : Json → Bool
  | .null => true
  | .bool b => !b
  | .num n => n == 0
  | .str s => s == ""
  | .arr _ => false
  | .obj _ => false

/-- The value of `res.key` for a parsed value `res` other than `null` and a key
among `clientName`, `numOfGuests`, `time`: the last member of that name of an
object, `none` (that is `undefined`) otherwise. -/
def Json.prop (res : Json) (key : String) : Option Json :=
  match res with
  | .obj members => (members.reverse.find? (fun kv => kv.1 == key)).map (fun kv => kv.2)
  | _ => none

/-- Whether a value is `null`, the one parsed value on which reading a property throws. -/
def Json.isNull : Json → Bool
  | .null => true
  | _ => false

/-- A reservation as line 82 builds it from an element of the parsed array,
with the three fields as they are read from the element (`none` is
`undefined`); its `dishes` is `[]`. -/
structure RawReservation where
  clientName : Option Json
  numOfGuests : Option Json
  time : Option Json

/-- The outcome of running a constructor on persisted data: the constructed
object, an exception, or (`untyped`) a run that ends without exception with as
many reservations as the parsed array has elements, some of which has a field
outside the types of `Reservation`; the reservations are then given with
their raw fields. -/
inductive Construction (α : Type) where
  | ok (value : α)
  | threw (error : JSError)
  | untyped (reservations : List RawReservation)

/-- The fields line 82 reads from an element that is not `null`. -/
def rawReservation (res : Json) : RawReservation :=
  { clientName := res.prop "clientName", numOfGuests := res.prop "numOfGuests",
    time := res.prop "time" }

/-- The arrow function of line 82 on an element that is not `null`:
`new Reservation(res.clientName, res.numOfGuests, res.time)`; `none` when a
field falls outside the types of `Reservation`. A number of the document is
read as the nearest Number. The member `dishes` is not read. -/
def reviveReservation (res : Json) : Option Reservation :=
  match res.prop "clientName", res.prop "numOfGuests", res.prop "time" with
  | some (.str clientName), some (.num numOfGuests), some (.str time) =>
    some (Reservation.new clientName (.number (roundInt numOfGuests)) time)
  | some (.str clientName), some (.str numOfGuests), some (.str time) =>
    some (Reservation.new clientName (.string numOfGuests) time)
  | _, _, _ => none

/-- The call `items.map(res => new Reservation(...))` on elements that are not `null`. -/
def reviveAll : List Json → Option (List Reservation)
  | [] => some []
  | res :: rest =>
    match reviveReservation res, reviveAll rest with
    | some r, some rs => some (r :: rs)
    | _, _ => none

/-! ## `ReservationManager` -/

/-- The state of `class ReservationManager`: its field `reservations` and the
global `localStorage` its methods read and write. -/
structure ReservationManager where
  reservations : List Reservation
  localStorage : LocalStorage

/-- The constructor of `ReservationManager` (lines 80-83), run against the
given `localStorage`. -/
def ReservationManager.new (ls : LocalStorage) : Construction ReservationManager :=
  match JSON.parse ls.getItem with
  | .error e => .threw e
  | .ok parsed =>
    -- `parsed || []`
    let value := if parsed.falsy then Json.arr [] else parsed
    match value with
    | .arr items =>
      -- reading a property of `null` throws
      if items.any Json.isNull then .threw .typeError
      else
        match reviveAll items with
        | some rs => .ok { reservations := rs, localStorage := ls }
        | none => .untyped (items.map rawReservation)
    -- `.map` is not a function on these
    | _ => .threw .typeError

/-- The method `getReservationsByHour` (lines 95-97). -/
def ReservationManager.getReservationsByHour (m : ReservationManager) (time : String) :
    List Reservation :=
  m.reservations.filter (fun r => r.time == time)

/-- The method `addReservation` (lines 85-93). When `setItem` throws, the
exception leaves the method after `push` has run. -/
def ReservationManager.addReservation (m : ReservationManager) (reservation : Reservation) :
    Completion Bool × ReservationManager :=
  let reservationsAtThisHour := m.getReservationsByHour reservation.time
  if reservationsAtThisHour.length ≥ RESERVATION_LIMIT_PER_HOUR then
    (.normal false, m)
  else
    let pushed := m.reservations ++ [reservation]
    match m.localStorage.setItem (JSON.stringify pushed) with
    | .error e => (.throw e, { m with reservations := pushed })
    | .ok ls => (.normal true, { reservations := pushed, localStorage := ls })

/-- Calls `addReservation` for each reservation of the list in turn, collecting
how each call ends. -/
def ReservationManager.addAll (m : ReservationManager) :
    List Reservation → List (Completion Bool) × ReservationManager
  | [] => ([], m)
  | r :: rest =>
    let step := m.addReservation r
    let tail := ReservationManager.addAll step.2 rest
    (step.1 :: tail.1, tail.2)

/-- A `localStorage` without the key `'reservations'` that accepts every write. -/
def LocalStorage.fresh : LocalStorage :=
  { reservations := none, accepts := fun _ => true }

/-- A `localStorage` without the key `'reservations'` whose quota is exhausted. -/
def LocalStorage.full : LocalStorage :=
  { reservations := none, accepts := fun _ => false }

/-- The states a manager built on a `localStorage` without the key
`'reservations'` goes through under `addReservation` calls, whatever way each
call ends. -/
inductive Reachable : ReservationManager → Prop where
  | empty (ls : LocalStorage) (h : ls.reservations = none) :
      Reachable { reservations := [], localStorage := ls }
  | step (m : ReservationManager) (r : Reservation) (h : Reachable m) :
      Reachable (m.addReservation r).2

/-! ## The handlers `window.addReservation` and `window.addMenu` -/

/-- One element of `#dishOptions input[type="number"]`: its `dataset.dish`
and its `value`. -/
structure DishInput where
  dish : String
  value : String
deriving DecidableEq, Repr

/-- The comparison `parseInt(input.value) > 0`, false on `NaN`. -/
def positiveQuantity (input : DishInput) : Bool :=
  (parseInt input.value).toDouble.gt (.finite 0 0)

/-- The array `selectedDishes` of lines 161-166. -/
def selectedDishes (dishInputs : List DishInput) : List DishLine :=
  (dishInputs.filter positiveQuantity).map
    (fun input => { name := input.dish, quantity := parseInt input.value })

/-- What `addMenu` shows to the user. -/
inductive Alert where
  | confirmation (info : String)
  | limitReached (time : String)
  | noDishes
deriving DecidableEq, Repr

/-- The variables the handlers work on: `currentReservation` (`none` is
`null`), `manager` with the storage, and the positions of
`manager.reservations` whose element is the object `currentReservation`
itself. -/
structure App where
  currentReservation : Option Reservation
  manager : ReservationManager
  stored : List Nat

/-- The handler `window.addReservation` (lines 120-138) on the values of the
three form fields: with an empty field nothing changes, otherwise
`currentReservation` becomes a new object, which no position of the manager
holds. -/
def windowAddReservation (app : App) (clientName numOfGuests time : String) : App :=
  if clientName = "" ∨ numOfGuests = "" ∨ time = "" then app
  else
    { currentReservation := some (Reservation.new clientName (.string numOfGuests) time)
      manager := app.manager
      stored := [] }

/-- The sequence in which every element at one of the positions is replaced
by `r`, counting positions from `i`. -/
def rebindFrom (positions : List Nat) (r : Reservation) : Nat → List Reservation → List Reservation
  | _, [] => []
  | i, x :: rest => (if i ∈ positions then r else x) :: rebindFrom positions r (i + 1) rest

/-- The sequence of the manager as it reads after an assignment to
`currentReservation`: the positions that hold that object show its new value. -/
def rebind (reservations : List Reservation) (positions : List Nat) (r : Reservation) :
    List Reservation :=
  rebindFrom positions r 0 reservations

/-- A run of `addMenu`: how it ended, the variables afterwards, and whether
`manager.addReservation` was called during the run. -/
structure MenuRun where
  completion : Completion Alert
  app : App
  addReservationInvoked : Bool

/-- The handler `window.addMenu` (lines 159-188). `success && ...` evaluates
its right operand only when `success` is `true`. When `addDishes` has assigned
the dishes, the positions of the manager that hold `currentReservation` show
them; `push` adds one more such position. -/
def addMenu (app : App) (dishInputs : List DishInput) : MenuRun :=
  let selected := selectedDishes dishInputs
  if selected.length > 0 then
    match app.currentReservation with
    | none => { completion := .throw .typeError, app := app, addReservationInvoked := false }
    | some current =>
      let assigned := current.addDishes selected
      if assigned.1 then
        let seen : ReservationManager :=
          { reservations := rebind app.manager.reservations app.stored assigned.2
            localStorage := app.manager.localStorage }
        let added := seen.addReservation assigned.2
        { completion :=
            match added.1 with
            | .normal true => .normal (.confirmation assigned.2.showInfo.1)
            | .normal false => .normal (.limitReached assigned.2.time)
            | .throw e => .throw e
          app :=
            { currentReservation := some assigned.2
              manager := added.2
              stored :=
                if added.2.reservations.length = seen.reservations.length then app.stored
                else app.stored ++ [seen.reservations.length] }
          addReservationInvoked := true }
      else
        { completion := .normal (.limitReached assigned.2.time)
          app := { currentReservation := some assigned.2, manager := app.manager,
                   stored := app.stored }
          addReservationInvoked := false }
  else
    { completion := .normal .noDishes, app := app, addReservationInvoked := false }

/-- Dish lines with integer quantities: one for each pair of a name and an
integer. -/
def intDishes (items : List (String × Int)) : List DishLine :=
  items.map (fun p => { name := p.1, quantity := .finite p.2 })

/-- A `localStorage` without the key `'reservations'` whose quota is reached
by an array of more than `k` elements. -/
def LocalStorage.holding (k : Nat) : LocalStorage :=
  { reservations := none
    accepts := fun j =>
      match j with
      | .arr items => decide (items.length ≤ k)
      | _ => false }

/-! ## Auxiliary facts on Numbers and rendering -/

/-- An integer of magnitude up to `2 ^ 53` is a Number: rounding leaves it. -/
theorem roundInt_safe (z : Int) (h : z.natAbs ≤ 2 ^ 53) : roundInt z = .finite z := by
  cases z with
  | ofNat n =>
    have hn : n ≤ 2 ^ 53 := h
    show roundNat n = _
    unfold roundNat
    rw [if_pos hn]
    rfl
  | negSucc n =>
    have hn : n + 1 ≤ 2 ^ 53 := h
    show (roundNat (n + 1)).neg = _
    unfold roundNat
    rw [if_pos hn]
    rfl

theorem totalDishes_append (l : List DishLine) (d : DishLine) :
    totalDishes (l ++ [d]) = (totalDishes l).add d.quantity := by
  simp [totalDishes, List.foldl_append]

/-- While every running total stays within `2 ^ 53` in magnitude, the value
line 67 computes is the exact sum of the quantities. -/
theorem totalDishes_safe (items : List (String × Int))
    (hsafe : ∀ l ∈ items.inits, (l.map Prod.snd).sum.natAbs ≤ 2 ^ 53) :
    totalDishes (intDishes items) = .finite (items.map Prod.snd).sum := by
  induction items using List.reverseRecOn with
  | nil => rfl
  | append_singleton l p ih =>
    have hl : ∀ l' ∈ l.inits, (l'.map Prod.snd).sum.natAbs ≤ 2 ^ 53 := by
      intro l' hl'
      apply hsafe
      rw [List.mem_inits] at hl' ⊢
      exact hl'.trans (List.prefix_append l [p])
    have hall := hsafe (l ++ [p]) (by rw [List.mem_inits])
    have hmap : intDishes (l ++ [p]) = intDishes l ++ [{ name := p.1, quantity := .finite p.2 }] := by
      simp [intDishes]
    rw [hmap, totalDishes_append, ih hl]
    simp only [Number.add]
    have hsum : ((l ++ [p]).map Prod.snd).sum = (l.map Prod.snd).sum + p.2 := by simp
    rw [hsum] at hall ⊢
    exact roundInt_safe _ hall

/-- The comparison of line 68 on an exact total against an integer Number. -/
theorem gt_finite (a b : Int) :
    (Number.finite a).toDouble.gt (Number.finite b).toDouble = decide (b < a) := by
  simp [Number.toDouble, Double.gt]

theorem joinFrom_eq_go (sep : String) (xs : List String) :
    ∀ (k : Nat) (R : String), 0 < k → joinFrom sep k R xs = String.intercalate.go R sep xs := by
  induction xs with
  | nil =>
    intro k R _
    simp [joinFrom, String.intercalate.go]
  | cons x rest ih =>
    intro k R hk
    simp only [joinFrom, hk, if_true, String.intercalate.go]
    exact ih (k + 1) _ (Nat.succ_pos k)

theorem join_eq_intercalate (sep : String) (xs : List String) :
    join sep xs = String.intercalate sep xs := by
  cases xs with
  | nil => rfl
  | cons x rest =>
    simp only [join, joinFrom, String.intercalate, lt_self_iff_false, if_false]
    rw [joinFrom_eq_go sep rest 1 _ Nat.one_pos, String.empty_append]

theorem joinFrom_append (sep : String) (xs ys : List String) :
    ∀ (k : Nat) (R : String),
      joinFrom sep k R (xs ++ ys) = joinFrom sep (k + xs.length) (joinFrom sep k R xs) ys := by
  induction xs with
  | nil => intro k R; rfl
  | cons x rest ih =>
    intro k R
    show joinFrom sep (k + 1) _ (rest ++ ys) = _
    rw [ih]
    simp only [joinFrom, List.length_cons]
    congr 1
    omega

/-- Joining a sequence that is not empty and one more element: the joined
sequence, the separator, the element. -/
theorem join_append_singleton (sep : String) (xs : List String) (x : String) (h : xs ≠ []) :
    join sep (xs ++ [x]) = join sep xs ++ sep ++ x := by
  unfold join
  rw [joinFrom_append]
  have hlen : 0 < 0 + xs.length := by
    have := List.length_pos.mpr h
    omega
  simp only [joinFrom, hlen, if_true]

/-! ## Properties of `Reservation` -/

/-- C1, as the code behaves: for a reservation with an integer `numOfGuests`
and dish lines with integer quantities whose running totals all stay within
`2 ^ 53` in magnitude, `addDishes(ds)` returns `true` exactly when the sum of
the quantities is at most `numOfGuests`; in that case the receiver afterwards
is the old one with `dishes` set to `ds`, and otherwise the receiver is
untouched. With two guests, one taco and one soup are accepted, two tacos and
one soup are rejected and `dishes` stays empty. -/
theorem addDishes_accepts_iff_sum_le (clientName time : String) (n : Int)
    (dishes : List DishLine) (items : List (String × Int))
    (hsafe : ∀ l ∈ items.inits, (l.map Prod.snd).sum.natAbs ≤ 2 ^ 53) :
    (((⟨clientName, .number (.finite n), time, dishes⟩ : Reservation).addDishes
          (intDishes items)).1 = true
        ↔ (items.map Prod.snd).sum ≤ n)
    ∧ (⟨clientName, .number (.finite n), time, dishes⟩ : Reservation).addDishes (intDishes items)
        = (if (items.map Prod.snd).sum ≤ n
            then (true, ⟨clientName, .number (.finite n), time, intDishes items⟩)
            else (false, ⟨clientName, .number (.finite n), time, dishes⟩)) := by
  have heq : (⟨clientName, .number (.finite n), time, dishes⟩ : Reservation).addDishes
        (intDishes items)
      = (if (items.map Prod.snd).sum ≤ n
          then (true, ⟨clientName, .number (.finite n), time, intDishes items⟩)
          else (false, ⟨clientName, .number (.finite n), time, dishes⟩)) := by
    unfold Reservation.addDishes
    rw [totalDishes_safe items hsafe]
    simp only [GuestCount.toNumber, gt_finite]
    by_cases h : (items.map Prod.snd).sum ≤ n
    · simp [h, not_lt.mpr h]
    · simp [h, not_le.mp h]
  refine ⟨?_, heq⟩
  rw [heq]
  by_cases h : (items.map Prod.snd).sum ≤ n
  · simp [h]
  · simp [h]

theorem addDishes_accepts_iff_sum_le_witness :
    (Reservation.new "Ana" 2 "18:00").addDishes [⟨"taco", 1⟩, ⟨"soup", 1⟩]
        = (true, ⟨"Ana", 2, "18:00", [⟨"taco", 1⟩, ⟨"soup", 1⟩]⟩)
    ∧ (Reservation.new "Ana" 2 "18:00").addDishes [⟨"taco", 2⟩, ⟨"soup", 1⟩]
        = (false, ⟨"Ana", 2, "18:00", []⟩) :=
  ⟨(addDishes_accepts_iff_sum_le "Ana" "18:00" 2 [] [("taco", 1), ("soup", 1)]
      (by decide)).2,
   (addDishes_accepts_iff_sum_le "Ana" "18:00" 2 [] [("taco", 2), ("soup", 1)]
      (by decide)).2⟩

/-- C1 as stated fails above `2 ^ 53`: for `numOfGuests` 9007199254740992 and
the quantities 9007199254740992 and 1 the total of line 67 rounds to
9007199254740992, `addDishes` returns `true` and binds the dishes, although
the sum of the quantities is greater than `numOfGuests`. -/
theorem addDishes_accepts_rounded_total :
    (Reservation.new "Ana" 9007199254740992 "18:00").addDishes
        (intDishes [("a", 9007199254740992), ("b", 1)])
      = (true, ⟨"Ana", 9007199254740992, "18:00",
          [⟨"a", 9007199254740992⟩, ⟨"b", 1⟩]⟩)
    ∧ ¬ (([("a", 9007199254740992), ("b", 1)] : List (String × Int)).map Prod.snd).sum
          ≤ 9007199254740992 := by
  constructor
  · decide
  · decide

/-- C7: `showInfo()` returns the text `Cliente: `, the client name, `, Número de
invitados: `, the guest count as string concatenation renders it, `, Hora: `,
the time, `, Platos: ` and then the dishes in sequence order, each as
quantity, `x`, blank, name, separated by a comma and a blank (nothing for an
empty dish list): one more dish at the end of a dish list that is not empty
adds a comma, a blank and that dish to the text. The call leaves the receiver
as it was, so a second call returns the same string. A guest count held as a
string is rendered as that string, an integer below `10 ^ 21` by its decimal
digits, `10 ^ 21` as `1e+21`. For Ana, two guests, 18:00 and one Taco the text
is the one of the specification. -/
theorem showInfo_format (r : Reservation) :
    r.showInfo.2 = r
    ∧ r.showInfo.2.showInfo.1 = r.showInfo.1
    ∧ r.showInfo.1 =
        "Cliente: " ++ r.clientName ++ ", Número de invitados: " ++ r.numOfGuests.toJSString
          ++ ", Hora: " ++ r.time ++ ", Platos: "
          ++ String.intercalate ", "
              (r.dishes.map (fun d => numberToString d.quantity ++ "x " ++ d.name))
    ∧ (Reservation.showInfo ⟨r.clientName, r.numOfGuests, r.time, []⟩).1
        = "Cliente: " ++ r.clientName ++ ", Número de invitados: "
          ++ r.numOfGuests.toJSString ++ ", Hora: " ++ r.time ++ ", Platos: "
    ∧ (∀ d : DishLine,
        (Reservation.showInfo ⟨r.clientName, r.numOfGuests, r.time, [d]⟩).1
          = (Reservation.showInfo ⟨r.clientName, r.numOfGuests, r.time, []⟩).1
            ++ numberToString d.quantity ++ "x " ++ d.name)
    ∧ (∀ d : DishLine, r.dishes ≠ [] →
        (Reservation.showInfo ⟨r.clientName, r.numOfGuests, r.time, r.dishes ++ [d]⟩).1
          = r.showInfo.1 ++ ", " ++ numberToString d.quantity ++ "x " ++ d.name)
    ∧ (∀ s : String, GuestCount.toJSString (.string s) = s)
    ∧ (∀ n : Nat, n < 10 ^ 21 →
        GuestCount.toJSString (.number (.finite n)) = toString n
        ∧ numberToString (.finite n) = toString n)
    ∧ numberToString (.finite (10 ^ 21)) = "1e+21"
    ∧ (Reservation.showInfo ⟨"Ana", 2, "18:00", [⟨"Taco", 1⟩]⟩).1
        = "Cliente: Ana, Número de invitados: 2, Hora: 18:00, Platos: 1x Taco"
    ∧ (Reservation.showInfo ⟨"Ana", .string "2", "18:00", [⟨"Taco", 1⟩]⟩).1
        = "Cliente: Ana, Número de invitados: 2, Hora: 18:00, Platos: 1x Taco" := by
  have hnum : ∀ n : Nat, n < 10 ^ 21 → numberToString (.finite n) = toString n := by
    intro n hn
    have h0 : ¬ ((n : Int) < 0) := by omega
    simp only [numberToString, h0, if_false, natToString, Int.natAbs_ofNat, hn, if_true]
  refine ⟨rfl, rfl, ?_, ?_, ?_, ?_, fun _ => rfl, ?_, by decide, by decide, by decide⟩
  · simp only [Reservation.showInfo, join_eq_intercalate]
    rfl
  · simp [Reservation.showInfo, join, joinFrom]
  · intro d
    simp [Reservation.showInfo, join, joinFrom, renderDish, String.append_assoc]
  · intro d hne
    have hmap : r.dishes.map renderDish ≠ [] := by
      intro h
      exact hne (List.map_eq_nil_iff.mp h)
    simp only [Reservation.showInfo, List.map_append, List.map_cons, List.map_nil,
      join_append_singleton ", " _ _ hmap, renderDish, String.append_assoc]
  · intro n hn
    exact ⟨hnum n hn, hnum n hn⟩

theorem showInfo_format_witness :
    GuestCount.toJSString (.number (.finite (120 : Nat))) = "120" :=
  ((showInfo_format (Reservation.new "Ana" 2 "18:00")).2.2.2.2.2.2.2.1 120 (by decide)).1

/-! ## Properties of `ReservationManager.addReservation` -/

/-- The number of reservations with the given time, as `getReservationsByHour`
measures it. -/
theorem getReservationsByHour_length (m : ReservationManager) (t : String) :
    (m.getReservationsByHour t).length
      = m.reservations.countP (fun x => decide (x.time = t)) := by
  unfold ReservationManager.getReservationsByHour
  rw [List.countP_eq_length_filter]
  congr 1

theorem addReservation_full (m : ReservationManager) (r : Reservation)
    (h : RESERVATION_LIMIT_PER_HOUR ≤ m.reservations.countP (fun x => decide (x.time = r.time))) :
    m.addReservation r = (.normal false, m) := by
  unfold ReservationManager.addReservation
  simp only [getReservationsByHour_length]
  rw [if_pos h]

theorem addReservation_written (m : ReservationManager) (r : Reservation)
    (h : m.reservations.countP (fun x => decide (x.time = r.time)) < RESERVATION_LIMIT_PER_HOUR)
    (hw : m.localStorage.accepts (JSON.stringify (m.reservations ++ [r])) = true) :
    m.addReservation r =
      (.normal true,
        { reservations := m.reservations ++ [r],
          localStorage :=
            { reservations := some (.document (JSON.stringify (m.reservations ++ [r]))),
              accepts := m.localStorage.accepts } }) := by
  unfold ReservationManager.addReservation
  simp only [getReservationsByHour_length]
  rw [if_neg (not_le.mpr h)]
  simp [LocalStorage.setItem, hw]

theorem addReservation_refused_write (m : ReservationManager) (r : Reservation)
    (h : m.reservations.countP (fun x => decide (x.time = r.time)) < RESERVATION_LIMIT_PER_HOUR)
    (hw : m.localStorage.accepts (JSON.stringify (m.reservations ++ [r])) = false) :
    m.addReservation r =
      (.throw .quotaExceeded,
        { reservations := m.reservations ++ [r], localStorage := m.localStorage }) := by
  unfold ReservationManager.addReservation
  simp only [getReservationsByHour_length]
  rw [if_neg (not_le.mpr h)]
  simp [LocalStorage.setItem, hw]

/-- No call of `addReservation` changes which writes the storage accepts. -/
theorem addReservation_accepts (m : ReservationManager) (r : Reservation) :
    (m.addReservation r).2.localStorage.accepts = m.localStorage.accepts := by
  by_cases h : RESERVATION_LIMIT_PER_HOUR ≤ m.reservations.countP (fun x => decide (x.time = r.time))
  · rw [addReservation_full m r h]
  · cases hw : m.localStorage.accepts (JSON.stringify (m.reservations ++ [r]))
    · rw [addReservation_refused_write m r (not_le.mp h) hw]
    · rw [addReservation_written m r (not_le.mp h) hw]

/-- The in-memory count never exceeds the limit after a call, however it ends. -/
theorem addReservation_count_le (m : ReservationManager) (r : Reservation)
    (h : ∀ t : String, m.reservations.countP (fun x => decide (x.time = t)) ≤ 10) (t : String) :
    (m.addReservation r).2.reservations.countP (fun x => decide (x.time = t)) ≤ 10 := by
  by_cases hfull :
      RESERVATION_LIMIT_PER_HOUR ≤ m.reservations.countP (fun x => decide (x.time = r.time))
  · rw [addReservation_full m r hfull]
    exact h t
  · have hlt := not_le.mp hfull
    have hpush : (m.addReservation r).2.reservations = m.reservations ++ [r] := by
      cases hw : m.localStorage.accepts (JSON.stringify (m.reservations ++ [r]))
      · rw [addReservation_refused_write m r hlt hw]
      · rw [addReservation_written m r hlt hw]
    rw [hpush, List.countP_append]
    by_cases ht : r.time = t
    · subst ht
      simp only [RESERVATION_LIMIT_PER_HOUR] at hlt
      simp
      omega
    · have := h t
      simp [ht]
      exact this

/-- What is persisted after a call is what was persisted before it or the
serialization of the in-memory sequence after it. -/
theorem addReservation_persisted (m : ReservationManager) (r : Reservation) :
    (m.addReservation r).2.localStorage.reservations = m.localStorage.reservations
    ∨ (m.addReservation r).2.localStorage.reservations
        = some (.document (JSON.stringify (m.addReservation r).2.reservations)) := by
  by_cases hfull :
      RESERVATION_LIMIT_PER_HOUR ≤ m.reservations.countP (fun x => decide (x.time = r.time))
  · rw [addReservation_full m r hfull]
    exact Or.inl rfl
  · have hlt := not_le.mp hfull
    cases hw : m.localStorage.accepts (JSON.stringify (m.reservations ++ [r]))
    · rw [addReservation_refused_write m r hlt hw]
      exact Or.inl rfl
    · rw [addReservation_written m r hlt hw]
      exact Or.inr rfl

/-- C2: in every state reached from an empty store by `addReservation` calls,
for every time key the number of stored reservations with that time is at most
`RESERVATION_LIMIT_PER_HOUR` (10), both in the in-memory sequence and in the
persisted collection. -/
theorem reachable_count_le_limit (m : ReservationManager) (h : Reachable m) :
    (∀ t : String,
        m.reservations.countP (fun x => decide (x.time = t)) ≤ RESERVATION_LIMIT_PER_HOUR)
    ∧ (m.localStorage.reservations = none
        ∨ ∃ l : List Reservation,
            m.localStorage.reservations = some (.document (JSON.stringify l))
            ∧ ∀ t : String,
                l.countP (fun x => decide (x.time = t)) ≤ RESERVATION_LIMIT_PER_HOUR) := by
  induction h with
  | empty ls hls => exact ⟨fun t => by simp, Or.inl hls⟩
  | step m r _ ih =>
    have hmem := addReservation_count_le m r ih.1
    refine ⟨hmem, ?_⟩
    rcases addReservation_persisted m r with hsame | hnew
    · rw [hsame]
      exact ih.2
    · exact Or.inr ⟨_, hnew, hmem⟩

theorem reachable_count_le_limit_witness :
    Reachable (ReservationManager.addReservation ⟨[], LocalStorage.fresh⟩ ⟨"Ana", 2, "18:00", []⟩).2
    ∧ (ReservationManager.addReservation ⟨[], LocalStorage.fresh⟩
          ⟨"Ana", 2, "18:00", []⟩).2.reservations.countP (fun x => decide (x.time = "18:00"))
        ≤ RESERVATION_LIMIT_PER_HOUR :=
  have hr : Reachable
      (ReservationManager.addReservation ⟨[], LocalStorage.fresh⟩ ⟨"Ana", 2, "18:00", []⟩).2 :=
    Reachable.step _ _ (Reachable.empty LocalStorage.fresh rfl)
  ⟨hr, (reachable_count_le_limit _ hr).1 "18:00"⟩

theorem countP_same_time (t : String) (s : List Reservation) (h : ∀ x ∈ s, x.time = t) :
    s.countP (fun x => decide (x.time = t)) = s.length := by
  rw [List.countP_eq_length]
  intro x hx
  simp [h x hx]

theorem countP_other_time (t u : String) (hne : t ≠ u) (s : List Reservation)
    (h : ∀ x ∈ s, x.time = t) :
    s.countP (fun x => decide (x.time = u)) = 0 := by
  rw [List.countP_eq_zero]
  intro x hx
  simp [h x hx, hne]

/-- Submitting reservations of one time key to a store that holds only
reservations of that key and accepts every write: the calls succeed until the
limit is reached and return `false` from then on. -/
theorem addAll_same_time_from (t : String) (rs : List Reservation) :
    ∀ m : ReservationManager,
      (∀ j, m.localStorage.accepts j = true) →
      (∀ x ∈ m.reservations, x.time = t) →
      m.reservations.length ≤ 10 →
      (∀ r ∈ rs, r.time = t) →
      (m.addAll rs).1
          = List.replicate (min rs.length (10 - m.reservations.length)) (.normal true)
            ++ List.replicate (rs.length - (10 - m.reservations.length)) (.normal false)
      ∧ (m.addAll rs).2.reservations
          = m.reservations ++ rs.take (10 - m.reservations.length)
      ∧ (∀ j, (m.addAll rs).2.localStorage.accepts j = true) := by
  induction rs with
  | nil =>
    intro m hacc _ _ _
    simp [ReservationManager.addAll, hacc]
  | cons r rest ih =>
    intro m hacc hall hlen hrs
    have hrt : r.time = t := hrs r (List.mem_cons_self _ _)
    have hrest : ∀ x ∈ rest, x.time = t := fun x hx => hrs x (List.mem_cons_of_mem _ hx)
    have hcount : m.reservations.countP (fun x => decide (x.time = r.time))
        = m.reservations.length := by
      rw [hrt]
      exact countP_same_time t _ hall
    simp only [ReservationManager.addAll]
    by_cases hfull : m.reservations.length = 10
    · have hstep : m.addReservation r = (.normal false, m) :=
        addReservation_full m r (by rw [hcount, hfull]; decide)
      rw [hstep]
      obtain ⟨h1, h2, h3⟩ := ih m hacc hall hlen hrest
      refine ⟨?_, ?_, h3⟩
      · rw [h1, hfull]
        simp [List.replicate_succ]
      · rw [h2, hfull]
        simp
    · have hlt : m.reservations.length < 10 := by omega
      have hstep := addReservation_written m r
        (by rw [hcount]; simpa [RESERVATION_LIMIT_PER_HOUR] using hlt) (hacc _)
      rw [hstep]
      have hall1 : ∀ x ∈ m.reservations ++ [r], x.time = t := by
        intro x hx
        rcases List.mem_append.mp hx with hx | hx
        · exact hall x hx
        · rw [List.mem_singleton.mp hx]
          exact hrt
      obtain ⟨h1, h2, h3⟩ := ih
        { reservations := m.reservations ++ [r],
          localStorage :=
            { reservations := some (.document (JSON.stringify (m.reservations ++ [r]))),
              accepts := m.localStorage.accepts } }
        hacc hall1 (by simp; omega) hrest
      refine ⟨?_, ?_, h3⟩
      · rw [h1]
        simp only [List.length_append, List.length_singleton, List.length_cons]
        have e1 : min (rest.length + 1) (10 - m.reservations.length)
            = min rest.length (10 - (m.reservations.length + 1)) + 1 := by omega
        have e2 : rest.length + 1 - (10 - m.reservations.length)
            = rest.length - (10 - (m.reservations.length + 1)) := by omega
        rw [e1, e2, List.replicate_succ]
        rfl
      · rw [h2]
        simp only [List.length_append, List.length_singleton]
        have e3 : 10 - m.reservations.length = (10 - (m.reservations.length + 1)) + 1 := by
          omega
        rw [e3, List.take_succ_cons]
        simp

/-- After a call with a reservation of another time key the count for `t` is
what it was. -/
theorem addReservation_count_other (m : ReservationManager) (r : Reservation) (t : String)
    (hne : r.time ≠ t) :
    (m.addReservation r).2.reservations.countP (fun x => decide (x.time = t))
      = m.reservations.countP (fun x => decide (x.time = t)) := by
  by_cases hfull :
      RESERVATION_LIMIT_PER_HOUR ≤ m.reservations.countP (fun x => decide (x.time = r.time))
  · rw [addReservation_full m r hfull]
  · have hlt := not_le.mp hfull
    have hpush : (m.addReservation r).2.reservations = m.reservations ++ [r] := by
      cases hw : m.localStorage.accepts (JSON.stringify (m.reservations ++ [r]))
      · rw [addReservation_refused_write m r hlt hw]
      · rw [addReservation_written m r hlt hw]
    rw [hpush, List.countP_append]
    simp [hne]

/-- With a storage that accepts every write, the value `addReservation` returns
is decided by the count for the time of the reservation alone. -/
theorem addReservation_result (m : ReservationManager) (r : Reservation)
    (hacc : ∀ j, m.localStorage.accepts j = true) :
    (m.addReservation r).1
      = .normal (decide (m.reservations.countP (fun x => decide (x.time = r.time))
          < RESERVATION_LIMIT_PER_HOUR)) := by
  by_cases hfull :
      RESERVATION_LIMIT_PER_HOUR ≤ m.reservations.countP (fun x => decide (x.time = r.time))
  · rw [addReservation_full m r hfull]
    simp [not_lt.mpr hfull]
  · rw [addReservation_written m r (not_le.mp hfull) (hacc _)]
    simp [not_le.mp hfull]

/-- On a store that accepts every write, a call with a reservation of another
time key before it does not change what `addReservation` returns. -/
theorem addReservation_after_other_time (m : ReservationManager) (r1 r2 : Reservation)
    (hne : r1.time ≠ r2.time) (hacc : ∀ j, m.localStorage.accepts j = true) :
    ((m.addReservation r1).2.addReservation r2).1 = (m.addReservation r2).1 := by
  have hacc1 : ∀ j, (m.addReservation r1).2.localStorage.accepts j = true := by
    intro j
    rw [addReservation_accepts]
    exact hacc j
  rw [addReservation_result _ r2 hacc1, addReservation_result m r2 hacc,
    addReservation_count_other m r1 r2.time hne]

/-- The in-memory sequence after a call is the old one, or the old one with
the reservation appended. -/
theorem addReservation_reservations (m : ReservationManager) (r : Reservation) :
    (m.addReservation r).2.reservations = m.reservations
    ∨ (m.addReservation r).2.reservations = m.reservations ++ [r] := by
  by_cases hfull :
      RESERVATION_LIMIT_PER_HOUR ≤ m.reservations.countP (fun x => decide (x.time = r.time))
  · rw [addReservation_full m r hfull]
    exact Or.inl rfl
  · have hlt := not_le.mp hfull
    cases hw : m.localStorage.accepts (JSON.stringify (m.reservations ++ [r]))
    · rw [addReservation_refused_write m r hlt hw]
      exact Or.inr rfl
    · rw [addReservation_written m r hlt hw]
      exact Or.inr rfl

/-- A call that returns `true` has appended the reservation. -/
theorem addReservation_true_appends (m : ReservationManager) (r : Reservation)
    (h : (m.addReservation r).1 = .normal true) :
    (m.addReservation r).2.reservations = m.reservations ++ [r] := by
  by_cases hfull :
      RESERVATION_LIMIT_PER_HOUR ≤ m.reservations.countP (fun x => decide (x.time = r.time))
  · rw [addReservation_full m r hfull] at h
    simp at h
  · have hlt := not_le.mp hfull
    cases hw : m.localStorage.accepts (JSON.stringify (m.reservations ++ [r]))
    · rw [addReservation_refused_write m r hlt hw]
    · rw [addReservation_written m r hlt hw]

/-- C8, as the code behaves: when `setItem` throws after the in-memory append,
`addReservation` does not return; the exception reaches the caller, the
in-memory sequence keeps the appended reservation and the persisted collection
is what it was. -/
theorem addReservation_write_failure_keeps_append (m : ReservationManager) (r : Reservation)
    (hroom : m.reservations.countP (fun x => decide (x.time = r.time)) < 10)
    (hfail : m.localStorage.accepts (JSON.stringify (m.reservations ++ [r])) = false) :
    (m.addReservation r).1 = .throw .quotaExceeded
    ∧ (m.addReservation r).2.reservations = m.reservations ++ [r]
    ∧ (m.addReservation r).2.localStorage = m.localStorage := by
  rw [addReservation_refused_write m r hroom hfail]
  exact ⟨rfl, rfl, rfl⟩

theorem addReservation_write_failure_keeps_append_witness :
    (ReservationManager.addReservation ⟨[], LocalStorage.full⟩ ⟨"Ana", 2, "18:00", []⟩).1
        = .throw .quotaExceeded
    ∧ (ReservationManager.addReservation ⟨[], LocalStorage.full⟩
          ⟨"Ana", 2, "18:00", []⟩).2.reservations = [⟨"Ana", 2, "18:00", []⟩] :=
  have h := addReservation_write_failure_keeps_append ⟨[], LocalStorage.full⟩
    ⟨"Ana", 2, "18:00", []⟩ (by decide) rfl
  ⟨h.1, h.2.1⟩

/-- C8 as stated fails: on an empty store whose storage refuses the write, the
call for Ana at 18:00 ends with the exception, and the in-memory sequence
afterwards holds the reservation, so it differs from the sequence before the
call and from the persisted collection, which stays absent. -/
theorem addReservation_no_rollback :
    (ReservationManager.addReservation ⟨[], LocalStorage.full⟩ ⟨"Ana", 2, "18:00", []⟩).1
        = .throw .quotaExceeded
    ∧ (ReservationManager.addReservation ⟨[], LocalStorage.full⟩
          ⟨"Ana", 2, "18:00", []⟩).2.reservations = [⟨"Ana", 2, "18:00", []⟩]
    ∧ (ReservationManager.addReservation ⟨[], LocalStorage.full⟩
          ⟨"Ana", 2, "18:00", []⟩).2.reservations
        ≠ (⟨[], LocalStorage.full⟩ : ReservationManager).reservations
    ∧ (ReservationManager.addReservation ⟨[], LocalStorage.full⟩
          ⟨"Ana", 2, "18:00", []⟩).2.localStorage.reservations.isNone = true := by
  refine ⟨rfl, rfl, ?_, rfl⟩
  intro h
  have h2 : (ReservationManager.addReservation ⟨[], LocalStorage.full⟩
      ⟨"Ana", 2, "18:00", []⟩).2.reservations = [⟨"Ana", 2, "18:00", []⟩] := rfl
  rw [h2] at h
  exact absurd h (by decide)

/-- C3, as the code behaves: with `s` the reservation sequence of the store,
`addReservation(r)` returns `false` and leaves the sequence and the persisted
collection as they were when at least 10 elements of `s` have the time of
`r`; otherwise, when the storage accepts the write, it returns `true`, the
sequence becomes `s` with `r` appended at the end and the persisted collection
becomes the serialization of that whole sequence. -/
theorem addReservation_contract (m : ReservationManager) (r : Reservation) :
    (10 ≤ m.reservations.countP (fun x => decide (x.time = r.time)) →
        m.addReservation r = (.normal false, m))
    ∧ (m.reservations.countP (fun x => decide (x.time = r.time)) < 10 →
        m.localStorage.accepts (JSON.stringify (m.reservations ++ [r])) = true →
        (m.addReservation r).1 = .normal true
        ∧ (m.addReservation r).2.reservations = m.reservations ++ [r]
        ∧ (m.addReservation r).2.localStorage.reservations
            = some (.document (JSON.stringify (m.reservations ++ [r])))) := by
  constructor
  · intro h
    exact addReservation_full m r h
  · intro h hw
    rw [addReservation_written m r h hw]
    exact ⟨rfl, rfl, rfl⟩

theorem addReservation_contract_witness :
    ReservationManager.addReservation
        ⟨List.replicate 10 ⟨"Luis", 3, "18:00", []⟩, LocalStorage.fresh⟩ ⟨"Ana", 2, "18:00", []⟩
      = (.normal false, ⟨List.replicate 10 ⟨"Luis", 3, "18:00", []⟩, LocalStorage.fresh⟩)
    ∧ (ReservationManager.addReservation
          ⟨List.replicate 9 ⟨"Luis", 3, "18:00", []⟩, LocalStorage.fresh⟩
          ⟨"Ana", 2, "18:00", []⟩).1 = .normal true
    ∧ (ReservationManager.addReservation
          ⟨List.replicate 9 ⟨"Luis", 3, "18:00", []⟩, LocalStorage.fresh⟩
          ⟨"Ana", 2, "18:00", []⟩).2.reservations
        = List.replicate 9 ⟨"Luis", 3, "18:00", []⟩ ++ [⟨"Ana", 2, "18:00", []⟩] :=
  have h := (addReservation_contract
    ⟨List.replicate 9 ⟨"Luis", 3, "18:00", []⟩, LocalStorage.fresh⟩ ⟨"Ana", 2, "18:00", []⟩).2
    (by decide) rfl
  ⟨(addReservation_contract
      ⟨List.replicate 10 ⟨"Luis", 3, "18:00", []⟩, LocalStorage.fresh⟩
      ⟨"Ana", 2, "18:00", []⟩).1 (by decide),
   h.1, h.2.1⟩

/-- C3 as stated fails: a store that holds one reservation at 19:00 has room
at 18:00, yet with the quota of the storage exhausted `addReservation` for Ana
at 18:00 does not return `true`; `setItem` throws after the append, and nothing
is persisted. -/
theorem addReservation_room_but_write_refused :
    (⟨[⟨"Luis", 3, "19:00", []⟩], LocalStorage.full⟩ : ReservationManager).reservations.countP
        (fun x => decide (x.time = "18:00")) < 10
    ∧ (ReservationManager.addReservation ⟨[⟨"Luis", 3, "19:00", []⟩], LocalStorage.full⟩
          ⟨"Ana", 2, "18:00", []⟩).1 = .throw .quotaExceeded
    ∧ (ReservationManager.addReservation ⟨[⟨"Luis", 3, "19:00", []⟩], LocalStorage.full⟩
          ⟨"Ana", 2, "18:00", []⟩).1 ≠ .normal true
    ∧ (ReservationManager.addReservation ⟨[⟨"Luis", 3, "19:00", []⟩], LocalStorage.full⟩
          ⟨"Ana", 2, "18:00", []⟩).2.localStorage.reservations.isNone = true := by
  refine ⟨by decide, rfl, ?_, rfl⟩
  have h : (ReservationManager.addReservation ⟨[⟨"Luis", 3, "19:00", []⟩], LocalStorage.full⟩
      ⟨"Ana", 2, "18:00", []⟩).1 = .throw .quotaExceeded := rfl
  rw [h]
  decide

/-- C5, as the code behaves: from an empty store whose storage accepts every
write, submitting one after another the reservations of any list whose
elements share one time key, the first `min n 10` calls return `true` and all
further calls return `false`, and the store then holds the first `min n 10`
reservations; with eleven reservations the first ten calls succeed, the
eleventh returns `false` and the stored list has length 10. -/
theorem addAll_same_time_from_empty (t : String) (rs : List Reservation)
    (hsame : ∀ r ∈ rs, r.time = t) (accepts : Json → Bool)
    (hacc : ∀ j, accepts j = true) :
    (ReservationManager.addAll ⟨[], ⟨none, accepts⟩⟩ rs).1
        = List.replicate (min rs.length 10) (.normal true)
          ++ List.replicate (rs.length - min rs.length 10) (.normal false)
    ∧ (ReservationManager.addAll ⟨[], ⟨none, accepts⟩⟩ rs).2.reservations = rs.take 10
    ∧ (rs.length = 11 →
        (ReservationManager.addAll ⟨[], ⟨none, accepts⟩⟩ rs).1
            = List.replicate 10 (.normal true) ++ [.normal false]
        ∧ (ReservationManager.addAll ⟨[], ⟨none, accepts⟩⟩ rs).2.reservations.length = 10) := by
  obtain ⟨h1, h2, _⟩ :=
    addAll_same_time_from t rs ⟨[], ⟨none, accepts⟩⟩ hacc (by simp) (by simp) hsame
  simp only [List.length_nil, Nat.sub_zero, List.nil_append] at h1 h2
  have e : rs.length - min rs.length 10 = rs.length - 10 := by omega
  refine ⟨by rw [h1, e], h2, ?_⟩
  intro h11
  constructor
  · rw [h1, h11]
    rfl
  · rw [h2, List.length_take, h11]
    rfl

theorem addAll_same_time_from_empty_witness :
    (ReservationManager.addAll ⟨[], ⟨none, fun _ => true⟩⟩
        (List.replicate 11 ⟨"Ana", 2, "18:00", []⟩)).1
      = List.replicate 10 (.normal true) ++ [.normal false]
    ∧ (ReservationManager.addAll ⟨[], ⟨none, fun _ => true⟩⟩
        (List.replicate 11 ⟨"Ana", 2, "18:00", []⟩)).2.reservations.length = 10 :=
  (addAll_same_time_from_empty "18:00" (List.replicate 11 ⟨"Ana", 2, "18:00", []⟩)
    (by decide) (fun _ => true) (fun _ => rfl)).2.2 (by decide)

/-- C5 as stated fails: on an empty store whose storage takes arrays of two
elements at most, of three reservations at 18:00 the first two calls return
`true` and the third does not: `setItem` throws. -/
theorem addAll_stops_at_quota :
    (ReservationManager.addAll ⟨[], LocalStorage.holding 2⟩
        [⟨"Ana", 2, "18:00", []⟩, ⟨"Luis", 3, "18:00", []⟩, ⟨"Eva", 4, "18:00", []⟩]).1
      = [.normal true, .normal true, .throw .quotaExceeded]
    ∧ (ReservationManager.addAll ⟨[], LocalStorage.holding 2⟩
        [⟨"Ana", 2, "18:00", []⟩, ⟨"Luis", 3, "18:00", []⟩, ⟨"Eva", 4, "18:00", []⟩]).1
      ≠ List.replicate (min 3 10) (.normal true) := by
  have h : (ReservationManager.addAll ⟨[], LocalStorage.holding 2⟩
      [⟨"Ana", 2, "18:00", []⟩, ⟨"Luis", 3, "18:00", []⟩, ⟨"Eva", 4, "18:00", []⟩]).1
      = [.normal true, .normal true, .throw .quotaExceeded] := rfl
  refine ⟨h, ?_⟩
  rw [h]
  decide

/-- C6, as the code behaves: on a store whose storage accepts every write,
reservations of different time keys do not interfere. For reservations `r1`,
`r2` whose time strings differ, `addReservation(r2)` returns after
`addReservation(r1)` what it returns without it; this holds for `19:00`
against `18:00` and for `18:00` followed by a blank against `18:00`; and after
ten admissions at `18:00` into an empty store a reservation at `19:00` is
admitted. -/
theorem addReservation_other_time_independent (m : ReservationManager) (r1 r2 : Reservation)
    (hne : r1.time ≠ r2.time) (hacc : ∀ j, m.localStorage.accepts j = true) :
    ((m.addReservation r1).2.addReservation r2).1 = (m.addReservation r2).1
    ∧ (∀ a b : Reservation, a.time = "18:00" → (b.time = "19:00" ∨ b.time = "18:00 ") →
        ((m.addReservation a).2.addReservation b).1 = (m.addReservation b).1)
    ∧ (∀ rs : List Reservation, rs.length = 10 → (∀ r ∈ rs, r.time = "18:00") →
        r2.time = "19:00" →
        ((ReservationManager.addAll ⟨[], LocalStorage.fresh⟩ rs).2.addReservation r2).1
          = .normal true) := by
  refine ⟨addReservation_after_other_time m r1 r2 hne hacc, ?_, ?_⟩
  · intro a b ha hb
    apply addReservation_after_other_time m a b _ hacc
    rw [ha]
    rcases hb with hb | hb <;> rw [hb] <;> decide
  intro rs hlen hall h19
  obtain ⟨_, h2, h3⟩ := addAll_same_time_from "18:00" rs ⟨[], LocalStorage.fresh⟩
    (fun _ => rfl) (by simp) (by simp) hall
  simp only [List.nil_append, List.length_nil, Nat.sub_zero] at h2
  have hzero : (rs.take 10).countP (fun x : Reservation => decide (x.time = r2.time)) = 0 := by
    rw [h19]
    apply countP_other_time "18:00" "19:00" (by decide)
    intro x hx
    exact hall x (List.mem_of_mem_take hx)
  rw [addReservation_result _ r2 h3, h2, hzero]
  rfl

theorem addReservation_other_time_independent_witness :
    ((ReservationManager.addReservation
          ⟨List.replicate 10 ⟨"Ana", 2, "18:00", []⟩, LocalStorage.fresh⟩
          ⟨"Eva", 4, "18:00", []⟩).2.addReservation ⟨"Luis", 3, "19:00", []⟩).1
      = (ReservationManager.addReservation
          ⟨List.replicate 10 ⟨"Ana", 2, "18:00", []⟩, LocalStorage.fresh⟩
          ⟨"Luis", 3, "19:00", []⟩).1
    ∧ ((ReservationManager.addAll ⟨[], LocalStorage.fresh⟩
          (List.replicate 10 ⟨"Ana", 2, "18:00", []⟩)).2.addReservation
          ⟨"Luis", 3, "19:00", []⟩).1 = .normal true :=
  have h := addReservation_other_time_independent
    ⟨List.replicate 10 ⟨"Ana", 2, "18:00", []⟩, LocalStorage.fresh⟩
    ⟨"Eva", 4, "18:00", []⟩ ⟨"Luis", 3, "19:00", []⟩ (by decide) (fun _ => rfl)
  ⟨h.1, h.2.2 (List.replicate 10 ⟨"Ana", 2, "18:00", []⟩) (by decide) (by decide) rfl⟩

/-- C6 as stated fails: on an empty store whose storage takes arrays of one
element at most, `addReservation` for Luis at 19:00 returns `true` when called
first, and ends with the exception of `setItem` when Ana was admitted at 18:00
before it. -/
theorem addReservation_other_time_interferes :
    (ReservationManager.addReservation ⟨[], LocalStorage.holding 1⟩
        ⟨"Luis", 3, "19:00", []⟩).1 = .normal true
    ∧ (ReservationManager.addReservation ⟨[], LocalStorage.holding 1⟩
        ⟨"Ana", 2, "18:00", []⟩).1 = .normal true
    ∧ ((ReservationManager.addReservation ⟨[], LocalStorage.holding 1⟩
          ⟨"Ana", 2, "18:00", []⟩).2.addReservation ⟨"Luis", 3, "19:00", []⟩).1
        = .throw .quotaExceeded
    ∧ ((ReservationManager.addReservation ⟨[], LocalStorage.holding 1⟩
          ⟨"Ana", 2, "18:00", []⟩).2.addReservation ⟨"Luis", 3, "19:00", []⟩).1
        ≠ (ReservationManager.addReservation ⟨[], LocalStorage.holding 1⟩
            ⟨"Luis", 3, "19:00", []⟩).1 := by
  have h1 : (ReservationManager.addReservation ⟨[], LocalStorage.holding 1⟩
      ⟨"Luis", 3, "19:00", []⟩).1 = .normal true := rfl
  have h2 : ((ReservationManager.addReservation ⟨[], LocalStorage.holding 1⟩
      ⟨"Ana", 2, "18:00", []⟩).2.addReservation ⟨"Luis", 3, "19:00", []⟩).1
      = .throw .quotaExceeded := rfl
  refine ⟨h1, rfl, h2, ?_⟩
  rw [h1, h2]
  decide

/-! ## Properties of the constructor of `ReservationManager` -/

theorem reviveAll_length (items : List Json) :
    ∀ rs, reviveAll items = some rs → rs.length = items.length ∧ ∀ r ∈ rs, r.dishes = [] := by
  induction items with
  | nil =>
    intro rs h
    simp only [reviveAll, Option.some.injEq] at h
    subst h
    simp
  | cons res rest ih =>
    intro rs h
    simp only [reviveAll] at h
    cases hr : reviveReservation res with
    | none => simp [hr] at h
    | some r =>
      cases hrest : reviveAll rest with
      | none => simp [hr, hrest] at h
      | some rs' =>
        simp only [hr, hrest, Option.some.injEq] at h
        subst h
        obtain ⟨hlen, hd⟩ := ih rs' hrest
        refine ⟨by simp [hlen], ?_⟩
        intro x hx
        rcases List.mem_cons.mp hx with hx | hx
        · subst hx
          unfold reviveReservation at hr
          split at hr
          · simp only [Option.some.injEq] at hr
            rw [← hr]
            rfl
          · simp only [Option.some.injEq] at hr
            rw [← hr]
            rfl
          · exact absurd hr (by simp)
        · exact hd x hx

/-- C9, as the code behaves: construction yields the empty sequence without
error when nothing is stored under the key, and equally when the stored text
parses to a falsy value (`null`, `false`, `0`, the empty string); it ends with
an exception when the stored text is not JSON, when it parses to a truthy
value that is not an array, and when it parses to an array with a `null`
element; and for every array without a `null` element, whatever its elements
are, it ends without exception with one reservation for each element, whose
`clientName`, `numOfGuests` and `time` are what the element has under these
names (`undefined` when it has none) and whose `dishes` is empty. -/
theorem constructor_outcomes (ls : LocalStorage) :
    (ls.reservations = none → ReservationManager.new ls = .ok ⟨[], ls⟩)
    ∧ (∀ j, ls.reservations = some (.document j) → j.falsy = true →
        ReservationManager.new ls = .ok ⟨[], ls⟩)
    ∧ (ls.reservations = some .invalid → ReservationManager.new ls = .threw .syntaxError)
    ∧ (∀ j, ls.reservations = some (.document j) → j.falsy = false →
        (∀ items, j ≠ .arr items) → ReservationManager.new ls = .threw .typeError)
    ∧ (∀ items, ls.reservations = some (.document (.arr items)) → Json.null ∈ items →
        ReservationManager.new ls = .threw .typeError)
    ∧ (∀ items, ls.reservations = some (.document (.arr items)) →
        items.any Json.isNull = false →
        (∃ rs, ReservationManager.new ls = .ok ⟨rs, ls⟩
            ∧ reviveAll items = some rs
            ∧ rs.length = items.length ∧ ∀ r ∈ rs, r.dishes = [])
        ∨ (ReservationManager.new ls = .untyped (items.map rawReservation)
            ∧ (items.map rawReservation).length = items.length)) := by
  refine ⟨?_, ?_, ?_, ?_, ?_, ?_⟩
  · intro h
    simp [ReservationManager.new, LocalStorage.getItem, h, JSON.parse, Json.falsy, reviveAll]
  · intro j h hf
    simp [ReservationManager.new, LocalStorage.getItem, h, JSON.parse, hf, reviveAll]
  · intro h
    simp [ReservationManager.new, LocalStorage.getItem, h, JSON.parse]
  · intro j h hf hna
    cases j with
    | arr items => exact absurd rfl (hna items)
    | null => simp [Json.falsy] at hf
    | bool b => simp [ReservationManager.new, LocalStorage.getItem, h, JSON.parse, hf]
    | num n => simp [ReservationManager.new, LocalStorage.getItem, h, JSON.parse, hf]
    | str s => simp [ReservationManager.new, LocalStorage.getItem, h, JSON.parse, hf]
    | obj members => simp [ReservationManager.new, LocalStorage.getItem, h, JSON.parse, hf]
  · intro items h hmem
    have hany : items.any Json.isNull = true :=
      List.any_eq_true.mpr ⟨Json.null, hmem, rfl⟩
    simp [ReservationManager.new, LocalStorage.getItem, h, JSON.parse, Json.falsy, hany]
  · intro items h hany
    cases hrev : reviveAll items with
    | none =>
      right
      simp [ReservationManager.new, LocalStorage.getItem, h, JSON.parse, Json.falsy, hany, hrev]
    | some rs =>
      left
      obtain ⟨hlen, hd⟩ := reviveAll_length items rs hrev
      refine ⟨rs, ?_, rfl, hlen, hd⟩
      simp [ReservationManager.new, LocalStorage.getItem, h, JSON.parse, Json.falsy, hany, hrev]

theorem constructor_outcomes_witness :
    ReservationManager.new LocalStorage.fresh = .ok ⟨[], LocalStorage.fresh⟩
    ∧ ReservationManager.new ⟨some .invalid, fun _ => true⟩ = .threw .syntaxError
    ∧ ReservationManager.new ⟨some (.document (.num 7)), fun _ => true⟩ = .threw .typeError
    ∧ ReservationManager.new ⟨some (.document (.arr [.null])), fun _ => true⟩
        = .threw .typeError
    ∧ ((∃ rs, ReservationManager.new
            ⟨some (.document (.arr [.obj [("clientName", .str "Ana")]])), fun _ => true⟩
              = .ok ⟨rs, ⟨some (.document (.arr [.obj [("clientName", .str "Ana")]])),
                  fun _ => true⟩⟩
            ∧ reviveAll [.obj [("clientName", .str "Ana")]] = some rs
            ∧ rs.length = [Json.obj [("clientName", .str "Ana")]].length
            ∧ ∀ r ∈ rs, r.dishes = [])
        ∨ (ReservationManager.new
            ⟨some (.document (.arr [.obj [("clientName", .str "Ana")]])), fun _ => true⟩
              = .untyped ([Json.obj [("clientName", .str "Ana")]].map rawReservation)
            ∧ ([Json.obj [("clientName", .str "Ana")]].map rawReservation).length
              = [Json.obj [("clientName", .str "Ana")]].length)) :=
  ⟨(constructor_outcomes LocalStorage.fresh).1 rfl,
   (constructor_outcomes ⟨some .invalid, fun _ => true⟩).2.2.1 rfl,
   (constructor_outcomes ⟨some (.document (.num 7)), fun _ => true⟩).2.2.2.1 (.num 7) rfl rfl
     (fun _ h => Json.noConfusion h),
   (constructor_outcomes ⟨some (.document (.arr [.null])), fun _ => true⟩).2.2.2.2.1 [.null] rfl
     (List.mem_singleton.mpr rfl),
   (constructor_outcomes
      ⟨some (.document (.arr [.obj [("clientName", .str "Ana")]])), fun _ => true⟩).2.2.2.2.2
     [.obj [("clientName", .str "Ana")]] rfl rfl⟩

/-- C9 as stated fails, in two ways. With the stored text `null`, `0`, `false`
or the empty string literal, construction ends without error and yields the
empty sequence. With the stored text `[1]`, which is no sequence of
reservation records, construction ends without error as well and yields one
reservation whose three fields are `undefined`; so does `[{}]`. -/
theorem constructor_malformed_text_no_error :
    ReservationManager.new ⟨some (.document .null), fun _ => true⟩
        = .ok ⟨[], ⟨some (.document .null), fun _ => true⟩⟩
    ∧ ReservationManager.new ⟨some (.document (.num 0)), fun _ => true⟩
        = .ok ⟨[], ⟨some (.document (.num 0)), fun _ => true⟩⟩
    ∧ ReservationManager.new ⟨some (.document (.bool false)), fun _ => true⟩
        = .ok ⟨[], ⟨some (.document (.bool false)), fun _ => true⟩⟩
    ∧ ReservationManager.new ⟨some (.document (.str "")), fun _ => true⟩
        = .ok ⟨[], ⟨some (.document (.str "")), fun _ => true⟩⟩
    ∧ ReservationManager.new ⟨some (.document (.arr [.num 1])), fun _ => true⟩
        = .untyped [⟨none, none, none⟩]
    ∧ ReservationManager.new ⟨some (.document (.arr [.obj []])), fun _ => true⟩
        = .untyped [⟨none, none, none⟩] :=
  ⟨rfl, rfl, rfl, rfl, rfl, rfl⟩

/-! ## Round trip through the persisted collection -/

/-- The reservation the constructor builds from the serialization of a
reservation whose guest count is a string: the three scalar fields and no
dishes. -/
theorem reviveReservation_toJson_string (clientName guests time : String)
    (dishes : List DishLine) :
    reviveReservation (Reservation.toJson ⟨clientName, .string guests, time, dishes⟩)
      = some (Reservation.new clientName (.string guests) time) := by
  simp [reviveReservation, Reservation.toJson, GuestCount.toJson, Json.prop]

/-- The same for a guest count that is an integer of magnitude up to `2 ^ 53`. -/
theorem reviveReservation_toJson_number (clientName time : String) (n : Int)
    (hn : n.natAbs ≤ 2 ^ 53) (dishes : List DishLine) :
    reviveReservation (Reservation.toJson ⟨clientName, .number (.finite n), time, dishes⟩)
      = some (Reservation.new clientName (.number (.finite n)) time) := by
  simp [reviveReservation, Reservation.toJson, GuestCount.toJson, Number.toJson, Json.prop,
    roundInt_safe n hn]

/-- Constructing a manager from the serialization of reservations as the page
builds them (the guest count a string) yields them with every `dishes` reset
to the empty array. -/
theorem constructor_of_stringify (rs : List Reservation) (accepts : Json → Bool)
    (hpage : ∀ r ∈ rs, ∃ s, r.numOfGuests = .string s) :
    ReservationManager.new ⟨some (.document (JSON.stringify rs)), accepts⟩
      = .ok ⟨rs.map (fun r => Reservation.new r.clientName r.numOfGuests r.time),
          ⟨some (.document (JSON.stringify rs)), accepts⟩⟩ := by
  have hrev : reviveAll (rs.map Reservation.toJson)
      = some (rs.map (fun r => Reservation.new r.clientName r.numOfGuests r.time)) := by
    induction rs with
    | nil => rfl
    | cons r rest ih =>
      obtain ⟨s, hs⟩ := hpage r (List.mem_cons_self _ _)
      have hr : reviveReservation r.toJson
          = some (Reservation.new r.clientName r.numOfGuests r.time) := by
        cases r with
        | mk c g t ds =>
          simp only at hs
          subst hs
          exact reviveReservation_toJson_string c s t ds
      simp [reviveAll, hr, ih (fun x hx => hpage x (List.mem_cons_of_mem _ hx))]
  have hnull : (rs.map Reservation.toJson).any Json.isNull = false := by
    clear hrev hpage
    induction rs with
    | nil => rfl
    | cons r rest ih =>
      simp only [List.map_cons, List.any_cons, ih, Bool.or_false]
      rfl
  simp [ReservationManager.new, LocalStorage.getItem, JSON.parse, JSON.stringify, Json.falsy,
    hnull, hrev]

/-- C4 at the input where the code departs from it: Ana, two guests, 18:00,
with one Taco attached by a successful `addDishes`, is admitted into an empty
store; a manager constructed from the persisted collection then holds one
reservation whose `dishes` is empty, which is not the admitted reservation. -/
theorem reload_loses_dishes :
    (Reservation.new "Ana" 2 "18:00").addDishes [⟨"Taco", 1⟩]
        = (true, ⟨"Ana", 2, "18:00", [⟨"Taco", 1⟩]⟩)
    ∧ ReservationManager.addReservation ⟨[], LocalStorage.fresh⟩
          ⟨"Ana", 2, "18:00", [⟨"Taco", 1⟩]⟩
        = (.normal true,
            ⟨[⟨"Ana", 2, "18:00", [⟨"Taco", 1⟩]⟩],
             ⟨some (.document (JSON.stringify [⟨"Ana", 2, "18:00", [⟨"Taco", 1⟩]⟩])),
              fun _ => true⟩⟩)
    ∧ ReservationManager.new
          ⟨some (.document (JSON.stringify [⟨"Ana", 2, "18:00", [⟨"Taco", 1⟩]⟩])),
           fun _ => true⟩
        = .ok ⟨[⟨"Ana", 2, "18:00", []⟩],
            ⟨some (.document (JSON.stringify [⟨"Ana", 2, "18:00", [⟨"Taco", 1⟩]⟩])),
             fun _ => true⟩⟩
    ∧ ([⟨"Ana", 2, "18:00", []⟩] : List Reservation) ≠ [⟨"Ana", 2, "18:00", [⟨"Taco", 1⟩]⟩] := by
  refine ⟨by decide, rfl, rfl, by decide⟩

/-! ## Properties of `window.addMenu` -/

/-- Every selected dish has a quantity above zero. -/
theorem selectedDishes_pos (dishInputs : List DishInput) :
    ∀ d ∈ selectedDishes dishInputs, d.quantity.toDouble.gt (.finite 0 0) = true := by
  intro d hd
  unfold selectedDishes at hd
  obtain ⟨input, hin, rfl⟩ := List.mem_map.mp hd
  exact (List.mem_filter.mp hin).2

/-- The sum over a prefix of a sequence of integers above zero lies between
zero and the sum over the sequence. -/
theorem prefix_sum_bounds (xs l : List Int) (hpos : ∀ x ∈ xs, 0 < x) (hl : l <+: xs) :
    0 ≤ l.sum ∧ l.sum ≤ xs.sum := by
  obtain ⟨t, rfl⟩ := hl
  have hnonneg : ∀ ys : List Int, (∀ y ∈ ys, 0 < y) → 0 ≤ ys.sum := by
    intro ys hys
    induction ys with
    | nil => simp
    | cons y rest ih =>
      have h1 := hys y (List.mem_cons_self _ _)
      have h2 := ih (fun z hz => hys z (List.mem_cons_of_mem _ hz))
      simp only [List.sum_cons]
      omega
  have h1 := hnonneg l (fun y hy => hpos y (List.mem_append_left _ hy))
  have h2 := hnonneg t (fun y hy => hpos y (List.mem_append_right _ hy))
  rw [List.sum_append]
  omega

/-- The two outcomes of `addDishes`, by the comparison of line 68. -/
theorem addDishes_eq (r : Reservation) (ds : List DishLine) :
    r.addDishes ds =
      (if (totalDishes ds).toDouble.gt r.numOfGuests.toNumber = true then (false, r)
        else (true, { clientName := r.clientName, numOfGuests := r.numOfGuests,
                      time := r.time, dishes := ds })) := by
  unfold Reservation.addDishes
  rfl

theorem rebindFrom_length (positions : List Nat) (r : Reservation) (rs : List Reservation) :
    ∀ i, (rebindFrom positions r i rs).length = rs.length := by
  induction rs with
  | nil => intro i; rfl
  | cons x rest ih => intro i; simp [rebindFrom, ih]

/-- C10, as the code behaves: dish assignment gates the submission. For every
current reservation, store and list of dish inputs: when no input has a
quantity above zero or `addDishes` returns `false`, the run of `addMenu` does
not call `manager.addReservation` and leaves the reservation sequence, the
persisted collection and the current reservation as they were. A run that
confirms an admission has appended the current reservation, with the selected
dishes, to the sequence (in which the positions that hold the current
reservation show the new dishes); that dish list is not empty, its quantities
are all above zero, and the total line 67 computes is not greater than the
Number `numOfGuests` converts to. When `numOfGuests` converts to an integer,
the quantities are integers and their sum is at most `2 ^ 53`, the sum is at
most `numOfGuests`. -/
theorem addMenu_dishes_gate (current : Reservation) (m : ReservationManager)
    (stored : List Nat) (dishInputs : List DishInput) :
    ((selectedDishes dishInputs = []
        ∨ (current.addDishes (selectedDishes dishInputs)).1 = false) →
      (addMenu ⟨some current, m, stored⟩ dishInputs).addReservationInvoked = false
      ∧ (addMenu ⟨some current, m, stored⟩ dishInputs).app.manager = m
      ∧ (addMenu ⟨some current, m, stored⟩ dishInputs).app.currentReservation = some current)
    ∧ (∀ info, (addMenu ⟨some current, m, stored⟩ dishInputs).completion
          = .normal (.confirmation info) →
        (addMenu ⟨some current, m, stored⟩ dishInputs).app.manager.reservations
            = rebind m.reservations stored
                ⟨current.clientName, current.numOfGuests, current.time,
                  selectedDishes dishInputs⟩
              ++ [⟨current.clientName, current.numOfGuests, current.time,
                    selectedDishes dishInputs⟩]
        ∧ selectedDishes dishInputs ≠ []
        ∧ (∀ d ∈ selectedDishes dishInputs, d.quantity.toDouble.gt (.finite 0 0) = true)
        ∧ (totalDishes (selectedDishes dishInputs)).toDouble.gt current.numOfGuests.toNumber
            = false
        ∧ (∀ (g : Int) (items : List (String × Int)),
            current.numOfGuests.toNumber = .finite g 0 →
            selectedDishes dishInputs = intDishes items →
            (items.map Prod.snd).sum ≤ 2 ^ 53 →
            (items.map Prod.snd).sum ≤ g)) := by
  by_cases hsel : (selectedDishes dishInputs).length > 0
  · have hne : selectedDishes dishInputs ≠ [] := by
      intro h
      rw [h] at hsel
      simp at hsel
    have hadd := addDishes_eq current (selectedDishes dishInputs)
    cases hgt : (totalDishes (selectedDishes dishInputs)).toDouble.gt
        current.numOfGuests.toNumber with
    | true =>
      rw [hgt, if_pos rfl] at hadd
      refine ⟨?_, ?_⟩
      · intro _
        simp [addMenu, hsel, hadd]
      · intro info hinfo
        simp [addMenu, hsel, hadd] at hinfo
    | false =>
      rw [hgt] at hadd
      simp only [Bool.false_eq_true, if_false] at hadd
      refine ⟨?_, ?_⟩
      · rintro (h | h)
        · exact absurd h hne
        · rw [hadd] at h
          simp at h
      · intro info hinfo
        refine ⟨?_, hne, selectedDishes_pos dishInputs, rfl, ?_⟩
        · simp only [addMenu, hsel, if_true, hadd] at hinfo ⊢
          apply addReservation_true_appends
          revert hinfo
          generalize (ReservationManager.addReservation _ _).1 = c
          intro hinfo
          match c, hinfo with
          | .normal true, _ => rfl
        · intro g items hg hitems hbound
          have hpos : ∀ x ∈ items.map Prod.snd, (0 : Int) < x := by
            intro x hx
            obtain ⟨p, hp, rfl⟩ := List.mem_map.mp hx
            have hd := selectedDishes_pos dishInputs ⟨p.1, .finite p.2⟩
              (by rw [hitems]; exact List.mem_map.mpr ⟨p, hp, rfl⟩)
            simpa [Number.toDouble, Double.gt] using hd
          have hsafe : ∀ l ∈ items.inits, (l.map Prod.snd).sum.natAbs ≤ 2 ^ 53 := by
            intro l hl
            rw [List.mem_inits] at hl
            have hb := prefix_sum_bounds (items.map Prod.snd) (l.map Prod.snd) hpos
              (List.IsPrefix.map Prod.snd hl)
            omega
          rw [hitems, totalDishes_safe items hsafe, hg] at hgt
          simpa [Number.toDouble, Double.gt] using hgt
  · refine ⟨?_, ?_⟩
    · intro _
      simp [addMenu, hsel]
    · intro info hinfo
      simp [addMenu, hsel] at hinfo

theorem addMenu_dishes_gate_witness :
    (addMenu ⟨some (Reservation.new "Ana" (.string "2") "18:00"), ⟨[], LocalStorage.fresh⟩, []⟩
        [⟨"Taco", "2"⟩, ⟨"Sopa", "1"⟩]).addReservationInvoked = false
    ∧ (addMenu ⟨some (Reservation.new "Ana" (.string "2") "18:00"), ⟨[], LocalStorage.fresh⟩, []⟩
        [⟨"Taco", "1"⟩, ⟨"Sopa", "1"⟩]).app.manager.reservations
        = [⟨"Ana", .string "2", "18:00", [⟨"Taco", 1⟩, ⟨"Sopa", 1⟩]⟩]
    ∧ (([("Taco", 1), ("Sopa", 1)] : List (String × Int)).map Prod.snd).sum ≤ 2 :=
  have h := (addMenu_dishes_gate (Reservation.new "Ana" (.string "2") "18:00")
    ⟨[], LocalStorage.fresh⟩ [] [⟨"Taco", "1"⟩, ⟨"Sopa", "1"⟩]).2
    "Cliente: Ana, Número de invitados: 2, Hora: 18:00, Platos: 1x Taco, 1x Sopa" (by decide)
  ⟨((addMenu_dishes_gate (Reservation.new "Ana" (.string "2") "18:00") ⟨[], LocalStorage.fresh⟩
      [] [⟨"Taco", "2"⟩, ⟨"Sopa", "1"⟩]).1 (Or.inr (by decide))).1,
   h.1,
   h.2.2.2.2 2 [("Taco", 1), ("Sopa", 1)] (by decide) (by decide) (by decide)⟩

/-- C10 as stated fails in its consequence: the page stores the raw text of
the form field in `numOfGuests`; for the text `abc` the comparison of line 68
is against `NaN`, so `addMenu` admits the reservation with ten tacos, whose
quantities do not sum to at most its `numOfGuests`. -/
theorem addMenu_admits_over_non_numeric_guests :
    (addMenu (windowAddReservation ⟨none, ⟨[], LocalStorage.fresh⟩, []⟩ "Ana" "abc" "18:00")
        [⟨"Taco", "10"⟩]).completion
      = .normal (.confirmation
          "Cliente: Ana, Número de invitados: abc, Hora: 18:00, Platos: 10x Taco")
    ∧ (addMenu (windowAddReservation ⟨none, ⟨[], LocalStorage.fresh⟩, []⟩ "Ana" "abc" "18:00")
        [⟨"Taco", "10"⟩]).app.manager.reservations
      = [⟨"Ana", .string "abc", "18:00", [⟨"Taco", 10⟩]⟩]
    ∧ (totalDishes [⟨"Taco", 10⟩]).toDouble.le (GuestCount.toNumber (.string "abc")) = false := by
  refine ⟨by decide, by decide, by decide⟩

end ReservationApp
